import Mathlib

/-!
Verification of the YouTube transcript bot (src/app.py) against its
specification. The Python functions are shallowly embedded as Lean
functions; external effects (subprocess runs, the filesystem, the speech
recognizer) are passed in explicitly as oracle values so the control flow
of the source can be stated and proved.
-/

namespace App

/-! ### FilenameSanitizer: clean_filename (app.py lines 21-30)

Python:
  cleaned = re.sub(r'[\\/*?:"<>|]', "_", filename)
  cleaned = cleaned.strip('. ')
  if len(cleaned) > 100: cleaned = cleaned[:100]
  return cleaned
-/

/-- Character class of the regex `[\\/*?:"<>|]`. -/
def isInvalidChar (c : Char) : Bool :=
  c = '\\' || c = '/' || c = '*' || c = '?' || c = ':' || c = '"' ||
  c = '<' || c = '>' || c = '|'

/-- Characters removed by `.strip('. ')`. -/
def isStripChar (c : Char) : Bool :=
  c = '.' || c = ' '

/-- `re.sub(r'[\\/*?:"<>|]', "_", s)` on the character list of `s`. -/
def replaceInvalid (l : List Char) : List Char :=
  l.map (fun c => if isInvalidChar c then '_' else c)

/-- Remove trailing `'. '` characters (the right half of `strip('. ')`). -/
def rstripDots (l : List Char) : List Char :=
  (l.reverse.dropWhile isStripChar).reverse

/-- `s.strip('. ')`: remove leading and trailing dots and spaces. -/
def stripDots (l : List Char) : List Char :=
  (rstripDots l).dropWhile isStripChar

/-- `clean_filename` on character lists: substitute, strip, then truncate
to 100 characters. -/
def cleanChars (l : List Char) : List Char :=
  let cleaned := stripDots (replaceInvalid l)
  if cleaned.length > 100 then cleaned.take 100 else cleaned

/-- app.py `clean_filename` (lines 21-30). -/
def clean_filename (s : String) : String :=
  String.mk (cleanChars s.data)

/-! ### Subprocess and metadata probe: get_video_info (app.py lines 32-61)

A `subprocess.run` outcome is a returncode plus captured stdout/stderr.
`json.loads` and the selection of the four fields from the parsed JSON are
modelled by an oracle `parseJson` returning either the relevant fields of
the parsed object or the message of the raised exception.
-/

structure ProcResult where
  returncode : Int
  stdout : String
  stderr : String
deriving DecidableEq

/-- The fields of the parsed yt-dlp JSON that get_video_info reads; `none`
models a key absent from the JSON object (so the `.get` default applies). -/
structure VideoJson where
  titleField : Option String
  uploaderField : Option String
  durationField : Option Nat
  thumbnailField : Option String
deriving DecidableEq

structure VideoInfo where
  title : String
  uploader : String
  duration : Nat
  thumbnail : String
deriving DecidableEq

/-- Result dictionary of get_video_info: success with the four fields, or
failure with an error string. -/
inductive InfoResult where
  | ok (info : VideoInfo)
  | err (error : String)
deriving DecidableEq

/-- app.py `get_video_info` (lines 32-61): non-zero exit returns the
captured stderr as the error; otherwise the stdout is parsed and missing
fields fall back to the documented defaults; a parse exception is caught
and its message returned as the error. -/
def get_video_info (proc : ProcResult) (parseJson : String → Except String VideoJson) :
    InfoResult :=
  if proc.returncode ≠ 0 then .err proc.stderr
  else
    match parseJson proc.stdout with
    | .error e => .err e
    | .ok v =>
        .ok { title := v.titleField.getD "Unknown Title"
            , uploader := v.uploaderField.getD "Unknown Uploader"
            , duration := v.durationField.getD 0
            , thumbnail := v.thumbnailField.getD "" }

/-! ### AudioExtractor: download_youtube_audio (app.py lines 63-126)

The output directory is modelled as the list of entry names it contains
after the extraction subprocess has run, together with a size map.
`os.path.exists(output_path/name)` is membership of `name` in that list and
`Path(output_path).glob(stem ++ ".*")` is the sublist of entries whose name
starts with `stem ++ "."`, in directory order, each resolved to
`output_path ++ "/" ++ name` as `str(...)` does.
-/

structure FS where
  dirFiles : List String
  size : String → Nat

/-- The external world download_youtube_audio interacts with: the probe
subprocess and JSON parse used by get_video_info, the extraction
subprocess outcome, and the state of the output directory afterwards. -/
structure Env where
  probeProc : ProcResult
  parseJson : String → Except String VideoJson
  extractProc : ProcResult
  fs : FS

/-- `os.path.basename`: the part of the path after the last slash. -/
def basename (p : String) : String :=
  String.mk ((p.data.reverse.takeWhile (fun c => c ≠ '/')).reverse)

/-- Whether the body of an fnmatch character class (with a possible
leading `!` already removed) matches `c`: an `a-b` triple is a codepoint
range (empty when reversed, as in CPython), a `-` first or last is a
literal member, and every other character is a literal member. -/
def classMatch (content : List Char) (c : Char) : Bool :=
  match content with
  | a :: '-' :: b :: rest => (a ≤ c && c ≤ b) || classMatch rest c
  | a :: rest => (a == c) || classMatch rest c
  | [] => false

/-- fnmatch character-class matching including negation: a class whose
content starts with `!` matches exactly the characters the rest does not. -/
def classMatches (content : List Char) (c : Char) : Bool :=
  match content with
  | '!' :: rest => !(classMatch rest c)
  | _ => classMatch content c

/-- Index of the `]` closing an fnmatch character class, for `p` the
pattern text just after the opening `[`. As in fnmatch.translate, an
optional leading `!` and a `]` immediately after it are part of the class
content, and the next `]` closes the class; `none` means the class is
unterminated and the `[` is a literal character. -/
def classCloseIdx (p : List Char) : Option Nat :=
  let skip1 := if p.head? = some '!' then 1 else 0
  let skip2 := skip1 + (if (p.drop skip1).head? = some ']' then 1 else 0)
  match (p.drop skip2).findIdx? (· = ']') with
  | none => none
  | some i => some (skip2 + i)

/-- One element of a compiled fnmatch pattern. -/
inductive GlobTok where
  | lit (c : Char)
  | anySeq
  | anyChar
  | cls (content : List Char)
deriving DecidableEq

/-- Compile an fnmatch pattern into tokens: `*` and `?` are wildcards, a
`[` opens a character class when it has a closing `]` (and is a literal
otherwise), everything else is literal. The fuel argument is the length
of the remaining pattern; every step consumes at least one pattern
character, so the fuel (initialized to the pattern length by
`globTokens`) never runs out and the `0` case is only reached on the
empty pattern. -/
def globTokensAux : Nat → List Char → List GlobTok
  | 0, _ => []
  | _ + 1, [] => []
  | fuel + 1, '*' :: p => .anySeq :: globTokensAux fuel p
  | fuel + 1, '?' :: p => .anyChar :: globTokensAux fuel p
  | fuel + 1, '[' :: p =>
      match classCloseIdx p with
      | none => .lit '[' :: globTokensAux fuel p
      | some j => .cls (p.take j) :: globTokensAux fuel (p.drop (j + 1))
  | fuel + 1, a :: p => .lit a :: globTokensAux fuel p

def globTokens (p : List Char) : List GlobTok :=
  globTokensAux p.length p

/-- Match a compiled fnmatch pattern against a name: `anySeq` matches any
(possibly empty) run of characters, i.e. some suffix of the name must
match the rest of the pattern. -/
def globMatchTok : List GlobTok → List Char → Bool
  | [], s => s.isEmpty
  | .anySeq :: ts, s => s.tails.any (fun s' => globMatchTok ts s')
  | .anyChar :: ts, s =>
      match s with
      | [] => false
      | _ :: s' => globMatchTok ts s'
  | .cls content :: ts, s =>
      match s with
      | [] => false
      | c :: s' => classMatches content c && globMatchTok ts s'
  | .lit a :: ts, s =>
      match s with
      | [] => false
      | c :: s' => a == c && globMatchTok ts s'

/-- Whether a directory entry matches `Path(...).glob(base ++ ".*")`: the
whole pattern, stem included, goes through fnmatch, so `*` and `?` are
wildcards and `[...]` is a character class (clean_filename does not
remove brackets, so stems with `[...]` are reachable and are interpreted,
not taken literally). -/
def globMatch (base : String) (n : String) : Bool :=
  globMatchTok (globTokens (base ++ ".*").data) n.data

/-- Result dictionary of download_youtube_audio, with the fields in the
order the source builds them. -/
inductive DLResult where
  | failure (error : String)
  | success (file_path title author file_name : String) (duration : Nat)
deriving DecidableEq

/-- app.py `download_youtube_audio` (lines 63-126). The Bool component
records whether the extraction subprocess was invoked (line 97). -/
def download_youtube_audio (env : Env) (youtube_url output_path format quality : String) :
    DLResult × Bool :=
  match get_video_info env.probeProc env.parseJson with
  | .err e => (.failure e, false)
  | .ok info =>
    let title := info.title
    let uploader := info.uploader
    let base_filename := clean_filename title
    let output_name := base_filename ++ "." ++ format
    let output_file := output_path ++ "/" ++ output_name
    if env.extractProc.returncode ≠ 0 then (.failure env.extractProc.stderr, true)
    else
      if output_name ∈ env.fs.dirFiles then
        (.success output_file title uploader (basename output_file) info.duration, true)
      else
        match (env.fs.dirFiles.filter (globMatch base_filename)).map
            (fun n => output_path ++ "/" ++ n) with
        | [] => (.failure "File not found after download", true)
        | f :: _ => (.success f title uploader (basename f) info.duration, true)

/-! ### Transcription: transcribe_audio / transcribe_long_audio
(app.py lines 128-246)

The speech recognizer is an oracle from the audio content handed to
`recognize_google` and the attempt number (0 = first call, 1 = the single
retry after the fixed `time.sleep(2)` delay) to an outcome: recognized
text, `sr.UnknownValueError`, or `sr.RequestError` with a message. Audio
is a list of samples at millisecond resolution, so `len(audio)` is the
pydub length in ms.
-/

inductive RecOutcome where
  | ok (text : String)
  | unknownValue
  | requestError (msg : String)
deriving DecidableEq

inductive TResult where
  | success (transcript : String)
  | failure (error : String)
deriving DecidableEq

/-- `chunk_length_ms = 30 * 1000` (app.py line 188). -/
def chunk_length_ms : Nat := 30 * 1000

/-- `[audio[i:i+chunk_length_ms] for i in range(0, len(audio), chunk_length_ms)]`
(app.py line 189): `range(0, L, step)` has `(L + step - 1) / step` elements. -/
def chunkList (audio : List Nat) : List (List Nat) :=
  (List.range' 0 ((audio.length + chunk_length_ms - 1) / chunk_length_ms)
      chunk_length_ms).map
    (fun i => (audio.drop i).take chunk_length_ms)

/-- The per-chunk try/except around `recognize_google` (app.py lines
214-228): UnknownValueError yields a placeholder, RequestError triggers
one retry whose failure (the bare `except:`) yields the other placeholder. -/
def recognize_chunk (oracle : List Nat → Nat → RecOutcome) (chunk : List Nat) : String :=
  match oracle chunk 0 with
  | .ok t => t
  | .unknownValue => "[Unclear audio]"
  | .requestError _ =>
      match oracle chunk 1 with
      | .ok t => t
      | _ => "[Recognition error]"

/-- app.py `transcribe_long_audio` (lines 177-246): split into 30-second
chunks, transcribe each in order with per-chunk fault tolerance, and join
the chunk texts with `" ".join(...)`. -/
def transcribe_long_audio (oracle : List Nat → Nat → RecOutcome) (audio : List Nat) :
    TResult :=
  .success (String.intercalate " " ((chunkList audio).map (recognize_chunk oracle)))

/-- app.py `transcribe_audio` (lines 128-175): durations above 60 seconds
are routed to transcribe_long_audio; otherwise the whole audio is
recognized once, with the two recognizer exceptions mapped to the error
messages of lines 170-173. (The WAV conversion of lines 138-168 changes
the container, not the audio content, so both branches hand the same
samples to the recognizer.) -/
def transcribe_audio (oracle : List Nat → Nat → RecOutcome) (audio : List Nat)
    (duration : Nat) : TResult :=
  if duration > 60 then transcribe_long_audio oracle audio
  else
    match oracle audio 0 with
    | .ok t => .success t
    | .unknownValue => .failure "Speech Recognition could not understand the audio"
    | .requestError e =>
        .failure ("Could not request results from Speech Recognition service; " ++ e)

/-! ### Generate Transcript handler (app.py lines 362-379)

`os.path.splitext` and the existing-transcript check. The filesystem is an
oracle from path to existence.
-/

/-- Index of the last occurrence of `c` in `s`, or -1 (Python `rfind`). -/
def lastIndexOf (c : Char) (s : List Char) : Int :=
  match s.reverse.findIdx? (· = c) with
  | some i => (s.length : Int) - 1 - (i : Int)
  | none => -1

/-- `os.path.splitext(s)[0]`: cut at the last dot when it comes after the
last slash and some character between them is not a dot (leading dots of
the basename never start an extension). -/
def splitextStem (s : List Char) : List Char :=
  let sepIndex := lastIndexOf '/' s
  let dotIndex := lastIndexOf '.' s
  if dotIndex > sepIndex then
    if ((s.take dotIndex.toNat).drop (sepIndex + 1).toNat).any (· ≠ '.') then
      s.take dotIndex.toNat
    else s
  else s

/-- `os.path.splitext(audio_file_name)[0] + ".txt"` (app.py line 366). -/
def transcript_filename (file_name : String) : String :=
  String.mk (splitextStem file_name.data) ++ ".txt"

/-- `os.path.join("transcripts", transcript_filename)` (app.py line 367). -/
def transcript_path (file_name : String) : String :=
  "transcripts" ++ "/" ++ transcript_filename file_name

/-- What the Generate Transcript handler decides to do with the transcript
file. -/
inductive TranscriptAction where
  | loadExisting (path : String)
  | generate (path : String)
deriving DecidableEq

/-- app.py lines 362-379: load the existing transcript when the plain-text
file exists, otherwise generate a new one at that path. -/
def generate_transcript_step (pathExists : String → Bool) (file_name : String) :
    TranscriptAction :=
  if pathExists (transcript_path file_name) then
    .loadExisting (transcript_path file_name)
  else
    .generate (transcript_path file_name)

/-! ### Concrete environments and oracles used by witnesses -/

/-- Probe fails with exit code 1, stderr "network error". -/
def envProbeFail : Env :=
  { probeProc := ⟨1, "", "network error"⟩
  , parseJson := fun _ => .error "unused"
  , extractProc := ⟨0, "", ""⟩
  , fs := ⟨[], fun _ => 0⟩ }

/-- Probe succeeds for title "stem", extraction exits 0, and the output
directory holds only "stem.opus" although "stem.mp3" was requested. -/
def envOpus : Env :=
  { probeProc := ⟨0, "ok", ""⟩
  , parseJson := fun _ => .ok ⟨some "stem", none, none, none⟩
  , extractProc := ⟨0, "", ""⟩
  , fs := ⟨["stem.opus"], fun _ => 7⟩ }

/-- Probe succeeds for title "stem", extraction exits 0, but the output
directory is empty. -/
def envEmptyDir : Env :=
  { probeProc := ⟨0, "ok", ""⟩
  , parseJson := fun _ => .ok ⟨some "stem", none, none, none⟩
  , extractProc := ⟨0, "", ""⟩
  , fs := ⟨[], fun _ => 0⟩ }

/-- Probe succeeds for title "a", extraction exits 0 and produced the
expected "a.mp3", but that file has size 0. -/
def envZeroByte : Env :=
  { probeProc := ⟨0, "ok", ""⟩
  , parseJson := fun _ => .ok ⟨some "a", none, none, none⟩
  , extractProc := ⟨0, "", ""⟩
  , fs := ⟨["a.mp3"], fun _ => 0⟩ }

/-- The spec example: probe succeeds for title "My: Video? <Test>" and the
extraction wrote "downloads/My_ Video_ _Test_.mp3". -/
def envSpecExample : Env :=
  { probeProc := ⟨0, "ok", ""⟩
  , parseJson := fun _ => .ok ⟨some "My: Video? <Test>", none, none, none⟩
  , extractProc := ⟨0, "", ""⟩
  , fs := ⟨["My_ Video_ _Test_.mp3"], fun _ => 9⟩ }

/-- Recognizer oracle that always succeeds with "w". -/
def oracleOk : List Nat → Nat → RecOutcome := fun _ _ => .ok "w"

/-- Recognizer oracle exercising each fault branch: chunk [1] is never
understood, chunk [2] hits a request error on both attempts, chunk [3]
hits a request error and then succeeds on the retry. -/
def oracleFaults : List Nat → Nat → RecOutcome := fun c a =>
  if c = [1] then .unknownValue
  else if c = [2] then .requestError "net"
  else if c = [3] then (if a = 0 then .requestError "net" else .ok "recovered")
  else .ok "hi"

/-- Filesystem where exactly "transcripts/video.txt" exists: the plain-text
transcript is present but no JSON sidecar is. -/
def fsTxtOnly : String → Bool := fun p => p == "transcripts/video.txt"

end App

namespace App

/-! ### Helper lemmas about the sanitizer pipeline -/

theorem mem_replaceInvalid_not_invalid {l : List Char} {c : Char}
    (h : c ∈ replaceInvalid l) : isInvalidChar c = false := by
  rcases List.mem_map.mp h with ⟨a, _, ha⟩
  by_cases hi : isInvalidChar a
  · simp [hi] at ha; subst ha; decide
  · simp [hi] at ha; subst ha; simpa using hi

theorem dropWhile_subset_self (p : Char → Bool) (l : List Char) :
    ∀ c ∈ l.dropWhile p, c ∈ l := by
  induction l with
  | nil => simp
  | cons a t ih =>
    intro c hc
    rw [List.dropWhile_cons] at hc
    by_cases hp : p a
    · simp [hp] at hc
      exact List.mem_cons_of_mem a (ih c hc)
    · simp [hp] at hc
      simpa using hc

theorem mem_stripDots {l : List Char} {c : Char} (h : c ∈ stripDots l) :
    c ∈ l := by
  have h1 : c ∈ rstripDots l := dropWhile_subset_self _ _ c h
  unfold rstripDots at h1
  rw [List.mem_reverse] at h1
  have h2 := dropWhile_subset_self isStripChar l.reverse c h1
  exact List.mem_reverse.mp h2

theorem mem_cleanChars {l : List Char} {c : Char} (h : c ∈ cleanChars l) :
    c ∈ replaceInvalid l := by
  unfold cleanChars at h
  by_cases hlen : (stripDots (replaceInvalid l)).length > 100
  · simp only [hlen, if_true] at h
    exact mem_stripDots (List.take_subset _ _ h)
  · simp only [hlen, if_false] at h
    exact mem_stripDots h

theorem head?_dropWhile_false (p : Char → Bool) (l : List Char) :
    ∀ c, (l.dropWhile p).head? = some c → p c = false := by
  induction l with
  | nil => simp
  | cons a t ih =>
    intro c h
    rw [List.dropWhile_cons] at h
    by_cases hp : p a
    · simp [hp] at h
      exact ih c h
    · simp [hp] at h
      subst h
      simpa using hp

theorem head?_take_pos {n : Nat} (l : List Char) (hn : 0 < n) :
    (l.take n).head? = l.head? := by
  cases l with
  | nil => simp
  | cons a t =>
    cases n with
    | zero => omega
    | succ m => simp

theorem getLast?_dropWhile (p : Char → Bool) (l : List Char) :
    ∀ c, (l.dropWhile p).getLast? = some c → l.getLast? = some c := by
  induction l with
  | nil => simp
  | cons a t ih =>
    intro c h
    rw [List.dropWhile_cons] at h
    by_cases hp : p a
    · simp only [hp, if_true] at h
      have ht := ih c h
      cases t with
      | nil => simp at ht
      | cons b u => rw [List.getLast?_cons_cons]; exact ht
    · simp only [hp, if_false] at h
      exact h

theorem getLast?_rstripDots_false (l : List Char) :
    ∀ c, (rstripDots l).getLast? = some c → isStripChar c = false := by
  intro c h
  unfold rstripDots at h
  rw [List.getLast?_reverse] at h
  exact head?_dropWhile_false isStripChar l.reverse c h

theorem getLast?_stripDots_false (l : List Char) :
    ∀ c, (stripDots l).getLast? = some c → isStripChar c = false := by
  intro c h
  exact getLast?_rstripDots_false l c (getLast?_dropWhile _ _ c h)

theorem head?_stripDots_false (l : List Char) :
    ∀ c, (stripDots l).head? = some c → isStripChar c = false :=
  fun c h => head?_dropWhile_false isStripChar (rstripDots l) c h

theorem cleanChars_length_le (l : List Char) :
    (cleanChars l).length ≤ 100 := by
  unfold cleanChars
  by_cases hlen : (stripDots (replaceInvalid l)).length > 100
  · simp [hlen]
  · simp only [hlen, if_false]
    omega

theorem cleanChars_head?_false (l : List Char) :
    ∀ c, (cleanChars l).head? = some c → isStripChar c = false := by
  intro c h
  unfold cleanChars at h
  by_cases hlen : (stripDots (replaceInvalid l)).length > 100
  · simp only [hlen, if_true] at h
    rw [head?_take_pos _ (by omega)] at h
    exact head?_stripDots_false _ c h
  · simp only [hlen, if_false] at h
    exact head?_stripDots_false _ c h

theorem cleanChars_eq_of_le {l : List Char}
    (h : (stripDots (replaceInvalid l)).length ≤ 100) :
    cleanChars l = stripDots (replaceInvalid l) := by
  unfold cleanChars
  simp only [gt_iff_lt]
  rw [if_neg (by omega)]

theorem dropWhile_eq_self_of_head? (p : Char → Bool) (l : List Char)
    (h : ∀ c, l.head? = some c → p c = false) : l.dropWhile p = l := by
  cases l with
  | nil => simp
  | cons a t =>
    rw [List.dropWhile_cons, if_neg]
    simp [h a rfl]

theorem replaceInvalid_eq_self {l : List Char}
    (h : ∀ c ∈ l, isInvalidChar c = false) : replaceInvalid l = l := by
  induction l with
  | nil => rfl
  | cons a t ih =>
    show (if isInvalidChar a then '_' else a) :: replaceInvalid t = a :: t
    rw [if_neg (by simp [h a (List.mem_cons_self a t)]),
      ih (fun c hc => h c (List.mem_cons_of_mem a hc))]

theorem rstripDots_eq_self {l : List Char}
    (h : ∀ c, l.getLast? = some c → isStripChar c = false) : rstripDots l = l := by
  unfold rstripDots
  rw [dropWhile_eq_self_of_head? _ _
    (fun c hc => h c (by rwa [List.head?_reverse] at hc)), List.reverse_reverse]

theorem stripDots_eq_self {l : List Char}
    (h1 : ∀ c, l.head? = some c → isStripChar c = false)
    (h2 : ∀ c, l.getLast? = some c → isStripChar c = false) : stripDots l = l := by
  unfold stripDots
  rw [rstripDots_eq_self h2]
  exact dropWhile_eq_self_of_head? _ _ h1

theorem stripDots_idem (l : List Char) : stripDots (stripDots l) = stripDots l :=
  stripDots_eq_self (head?_stripDots_false l) (getLast?_stripDots_false l)

theorem cleanChars_idem_of_le {l : List Char}
    (h : (stripDots (replaceInvalid l)).length ≤ 100) :
    cleanChars (cleanChars l) = cleanChars l := by
  rw [cleanChars_eq_of_le h]
  have hinv : ∀ c ∈ stripDots (replaceInvalid l), isInvalidChar c = false :=
    fun c hc => mem_replaceInvalid_not_invalid (mem_stripDots hc)
  have hkey : stripDots (replaceInvalid (stripDots (replaceInvalid l))) =
      stripDots (replaceInvalid l) := by
    rw [replaceInvalid_eq_self hinv]
    exact stripDots_idem _
  unfold cleanChars
  simp only [hkey, gt_iff_lt]
  rw [if_neg (by omega)]

/-! ### Claim theorems: the sanitizer (C3, C4, C10) -/

/-- C3 (counterexample): the claim that `clean_filename` output never ends
in a space or dot is false: for 99 a's followed by ".b" the strip happens
before the 100-character truncation, which re-exposes the dot as the last
character. -/
theorem clean_filename_trailing_dot_cex :
    (clean_filename (String.mk (List.replicate 99 'a' ++ ['.', 'b']))).data.getLast? =
        some '.' ∧
    isStripChar '.' = true := by
  decide

/-- C3 (amended): every `clean_filename` output has no character from the
invalid set, length at most 100, and no leading space or dot; the
no-trailing-space-or-dot guarantee holds whenever the stripped string is
at most 100 characters long, i.e. whenever the final truncation does not
fire (truncation can re-expose a trailing space or dot). -/
theorem clean_filename_sanitized (s : String) :
    (∀ c ∈ (clean_filename s).data, isInvalidChar c = false) ∧
    (clean_filename s).data.length ≤ 100 ∧
    (∀ c, (clean_filename s).data.head? = some c → isStripChar c = false) ∧
    ((stripDots (replaceInvalid s.data)).length ≤ 100 →
      ∀ c, (clean_filename s).data.getLast? = some c → isStripChar c = false) := by
  refine ⟨?_, ?_, ?_, ?_⟩
  · intro c hc
    exact mem_replaceInvalid_not_invalid (mem_cleanChars hc)
  · exact cleanChars_length_le s.data
  · exact cleanChars_head?_false s.data
  · intro h c hc
    rw [show (clean_filename s).data = cleanChars s.data from rfl,
      cleanChars_eq_of_le h] at hc
    exact getLast?_stripDots_false _ c hc

/-- Witness for `clean_filename_sanitized`: instantiated at "a:b" (whose
cleaned head is 'a') and at "ab." (whose stripped form has length 2 and
cleaned last character 'b'). -/
theorem clean_filename_sanitized_witness :
    isStripChar 'a' = false ∧ isStripChar 'b' = false := by
  constructor
  · exact (clean_filename_sanitized "a:b").2.2.1 'a' (by decide)
  · exact (clean_filename_sanitized "ab.").2.2.2 (by decide) 'b' (by decide)

/-- C4 (counterexample): `clean_filename` is not idempotent: on 99 a's
followed by ".b" the first pass truncates to a string ending in '.', and
the second pass strips that dot, changing the result. -/
theorem clean_filename_not_idempotent_cex :
    clean_filename (clean_filename (String.mk (List.replicate 99 'a' ++ ['.', 'b']))) ≠
      clean_filename (String.mk (List.replicate 99 'a' ++ ['.', 'b'])) := by
  decide

/-- C4 (amended): `clean_filename` is deterministic, and it is idempotent
on every input whose stripped substituted form is at most 100 characters,
i.e. whenever the final truncation does not fire. -/
theorem clean_filename_deterministic_idem (s : String)
    (h : (stripDots (replaceInvalid s.data)).length ≤ 100) :
    (∀ t : String, s = t → clean_filename s = clean_filename t) ∧
    clean_filename (clean_filename s) = clean_filename s := by
  refine ⟨fun t ht => by rw [ht], ?_⟩
  show String.mk (cleanChars (cleanChars s.data)) = String.mk (cleanChars s.data)
  rw [cleanChars_idem_of_le h]

/-- Witness for `clean_filename_deterministic_idem` at "abc". -/
theorem clean_filename_deterministic_idem_witness :
    clean_filename (clean_filename "abc") = clean_filename "abc" :=
  (clean_filename_deterministic_idem "abc" (by decide)).2

/-- C10: there is a non-empty title, consisting only of characters from
the invalid set, dots and spaces ("..." here), that `clean_filename` maps
to the empty string; no fallback stem is substituted. -/
theorem clean_filename_can_be_empty :
    ∃ s : String, s ≠ "" ∧
      (∀ c ∈ s.data, isInvalidChar c = true ∨ isStripChar c = true) ∧
      clean_filename s = "" :=
  ⟨"...", by decide, by decide, by decide⟩

/-! ### Claim theorems: transcription (C7, C8) -/

/-- C7: every duration above 60 seconds is routed to the chunked
transcriber, whose result is the per-chunk texts joined by single spaces
in chunk order; a 90-second (90000 ms) clip yields exactly 3 chunks, each
of at most 30 seconds. -/
theorem transcribe_long_routing_and_chunks (oracle : List Nat → Nat → RecOutcome)
    (audio : List Nat) (duration : Nat)
    (hdur : duration > 60) (hlen : audio.length = 90000) :
    transcribe_audio oracle audio duration =
      .success (String.intercalate " " ((chunkList audio).map (recognize_chunk oracle))) ∧
    (chunkList audio).length = 3 ∧
    ∀ c ∈ chunkList audio, c.length ≤ chunk_length_ms := by
  refine ⟨?_, ?_, ?_⟩
  · unfold transcribe_audio
    rw [if_pos hdur]
    rfl
  · unfold chunkList
    rw [List.length_map, List.length_range', hlen]
    decide
  · intro c hc
    unfold chunkList at hc
    rcases List.mem_map.mp hc with ⟨i, _, rfl⟩
    rw [List.length_take]
    exact Nat.min_le_left _ _

/-- Witness for `transcribe_long_routing_and_chunks` at a 90000 ms clip of
silence with reported duration 90 seconds. -/
theorem transcribe_long_routing_witness :
    (chunkList (List.replicate 90000 0)).length = 3 :=
  (transcribe_long_routing_and_chunks oracleOk (List.replicate 90000 0) 90
    (by decide) (List.length_replicate 90000 0)).2.1

/-- C8: chunked transcription always returns a transcript covering every
chunk (no per-chunk failure aborts it); an ununderstood chunk contributes
"[Unclear audio]", a chunk whose request errors is retried exactly once
and contributes "[Recognition error]" if the retry also fails, or the
retry's text if it succeeds. -/
theorem chunk_fault_tolerance (oracle : List Nat → Nat → RecOutcome)
    (audio chunk : List Nat) :
    (∃ t, transcribe_long_audio oracle audio = .success t ∧
      t = String.intercalate " " ((chunkList audio).map (recognize_chunk oracle))) ∧
    (oracle chunk 0 = .unknownValue → recognize_chunk oracle chunk = "[Unclear audio]") ∧
    (∀ e, oracle chunk 0 = .requestError e → (∀ t, oracle chunk 1 ≠ .ok t) →
      recognize_chunk oracle chunk = "[Recognition error]") ∧
    (∀ e t, oracle chunk 0 = .requestError e → oracle chunk 1 = .ok t →
      recognize_chunk oracle chunk = t) := by
  refine ⟨⟨_, rfl, rfl⟩, ?_, ?_, ?_⟩
  · intro h
    unfold recognize_chunk
    rw [h]
  · intro e h hnot
    unfold recognize_chunk
    rw [h]
    cases h1 : oracle chunk 1 with
    | ok t => exact absurd h1 (hnot t)
    | unknownValue => rfl
    | requestError m => rfl
  · intro e t h h1
    unfold recognize_chunk
    rw [h, h1]

/-- Witness for `chunk_fault_tolerance` on the three fault patterns of
`oracleFaults`. -/
theorem chunk_fault_tolerance_witness :
    recognize_chunk oracleFaults [1] = "[Unclear audio]" ∧
    recognize_chunk oracleFaults [2] = "[Recognition error]" ∧
    recognize_chunk oracleFaults [3] = "recovered" := by
  refine ⟨?_, ?_, ?_⟩
  · exact (chunk_fault_tolerance oracleFaults [] [1]).2.1 (by decide)
  · refine (chunk_fault_tolerance oracleFaults [] [2]).2.2.1 "net" (by decide) ?_
    intro t h
    rw [show oracleFaults [2] 1 = RecOutcome.requestError "net" by decide] at h
    simp at h
  · exact (chunk_fault_tolerance oracleFaults [] [3]).2.2.2 "net" "recovered"
      (by decide) (by decide)

/-! ### Claim theorems: the download pipeline (C1, C2, C5, C6) -/

/-- C2: a probe subprocess with non-zero exit makes get_video_info return
its stderr verbatim, and any probe failure makes download_youtube_audio
return that failure record as-is without invoking the extraction
subprocess (the Bool component is false). -/
theorem probe_failure_short_circuit (env : Env) (url dir fmt q : String) :
    (env.probeProc.returncode ≠ 0 →
      get_video_info env.probeProc env.parseJson = .err env.probeProc.stderr) ∧
    ∀ e, get_video_info env.probeProc env.parseJson = .err e →
      download_youtube_audio env url dir fmt q = (.failure e, false) := by
  constructor
  · intro h
    unfold get_video_info
    rw [if_pos h]
  · intro e h
    simp [download_youtube_audio, h]

/-- Witness for `probe_failure_short_circuit`: probe exits 1 with stderr
"network error". -/
theorem probe_failure_short_circuit_witness :
    download_youtube_audio envProbeFail "u" "downloads" "mp3" "192" =
      (.failure "network error", false) :=
  (probe_failure_short_circuit envProbeFail "u" "downloads" "mp3" "192").2
    "network error" (by decide)

/-- C1: on a zero-exit extraction whose expected output name is absent
from the output directory, download_youtube_audio falls back to the glob
scan for `stem.*`: the first match (in directory order) is returned as the
resolved file, and if there is none the result is the failure record
"File not found after download". -/
theorem extension_reconciliation (env : Env) (url dir fmt q : String) (info : VideoInfo)
    (hinfo : get_video_info env.probeProc env.parseJson = .ok info)
    (hrc : env.extractProc.returncode = 0)
    (hmiss : (clean_filename info.title ++ "." ++ fmt) ∉ env.fs.dirFiles) :
    (env.fs.dirFiles.filter (globMatch (clean_filename info.title)) = [] →
      download_youtube_audio env url dir fmt q =
        (.failure "File not found after download", true)) ∧
    (∀ n rest, env.fs.dirFiles.filter (globMatch (clean_filename info.title)) = n :: rest →
      download_youtube_audio env url dir fmt q =
        (.success (dir ++ "/" ++ n) info.title info.uploader
          (basename (dir ++ "/" ++ n)) info.duration, true)) := by
  constructor
  · intro hglob
    simp [download_youtube_audio, hinfo, hrc, hmiss, hglob]
  · intro n rest hglob
    simp [download_youtube_audio, hinfo, hrc, hmiss, hglob]

/-- Witness for `extension_reconciliation`: with "stem.mp3" requested and
only "stem.opus" present the opus file is resolved; with an empty
directory the exact failure message is produced. The last two conjuncts
exercise the fnmatch character-class semantics of the glob scan: a stem
containing `[...]` does not match its own literal file name but does
match a name drawing one character from the class. -/
theorem extension_reconciliation_witness :
    download_youtube_audio envOpus "u" "downloads" "mp3" "192" =
      (.success ("downloads" ++ "/" ++ "stem.opus") "stem" "Unknown Uploader"
        (basename ("downloads" ++ "/" ++ "stem.opus")) 0, true) ∧
    basename ("downloads" ++ "/" ++ "stem.opus") = "stem.opus" ∧
    globMatch "Song [Official Video]" "Song [Official Video].opus" = false ∧
    globMatch "Song [Official Video]" "Song O.opus" = true ∧
    download_youtube_audio envEmptyDir "u" "downloads" "mp3" "192" =
      (.failure "File not found after download", true) := by
  refine ⟨?_, by decide, by decide, by decide, ?_⟩
  · exact (extension_reconciliation envOpus "u" "downloads" "mp3" "192"
      ⟨"stem", "Unknown Uploader", 0, ""⟩ (by decide) (by decide) (by decide)).2
      "stem.opus" [] (by decide)
  · exact (extension_reconciliation envEmptyDir "u" "downloads" "mp3" "192"
      ⟨"stem", "Unknown Uploader", 0, ""⟩ (by decide) (by decide) (by decide)).1
      (by decide)

/-- C5 (counterexample): the code never checks that the produced file is
non-empty: with a zero-byte "a.mp3" in the output directory the result is
still a success record pointing at it. -/
theorem success_zero_byte_cex :
    (download_youtube_audio envZeroByte "u" "downloads" "mp3" "192").1 =
      .success ("downloads" ++ "/" ++ "a.mp3") "a" "Unknown Uploader" "a.mp3" 0 ∧
    envZeroByte.fs.size "a.mp3" = 0 := by
  constructor <;> decide

/-- C5 (amended): every success record's file_path points at an entry of
the output directory (so the file exists at return time), but nothing
guarantees it is non-empty. -/
theorem success_file_exists (env : Env) (url dir fmt q : String)
    (p t a n : String) (d : Nat) (r : Bool)
    (h : download_youtube_audio env url dir fmt q = (.success p t a n d, r)) :
    ∃ name ∈ env.fs.dirFiles, p = dir ++ "/" ++ name := by
  unfold download_youtube_audio at h
  cases hinfo : get_video_info env.probeProc env.parseJson with
  | err e =>
    rw [hinfo] at h
    simp at h
  | ok info =>
    rw [hinfo] at h
    simp only at h
    by_cases hrc : env.extractProc.returncode ≠ 0
    · rw [if_pos hrc] at h
      simp at h
    · rw [if_neg hrc] at h
      by_cases hex : (clean_filename info.title ++ "." ++ fmt) ∈ env.fs.dirFiles
      · rw [if_pos hex] at h
        simp only [Prod.mk.injEq, DLResult.success.injEq] at h
        exact ⟨clean_filename info.title ++ "." ++ fmt, hex, h.1.1.symm⟩
      · rw [if_neg hex] at h
        cases hfil : env.fs.dirFiles.filter (globMatch (clean_filename info.title)) with
        | nil =>
          rw [hfil] at h
          simp at h
        | cons n0 rest =>
          rw [hfil] at h
          simp only [List.map_cons, Prod.mk.injEq, DLResult.success.injEq] at h
          refine ⟨n0, ?_, h.1.1.symm⟩
          exact List.mem_of_mem_filter (hfil ▸ List.mem_cons_self n0 rest)

/-- Witness for `success_file_exists` at `envZeroByte`. -/
theorem success_file_exists_witness :
    ∃ name ∈ envZeroByte.fs.dirFiles,
      "downloads" ++ "/" ++ "a.mp3" = "downloads" ++ "/" ++ name :=
  success_file_exists envZeroByte "u" "downloads" "mp3" "192"
    ("downloads" ++ "/" ++ "a.mp3") "a" "Unknown Uploader" "a.mp3" 0 true (by decide)

/-- C6: whenever download_youtube_audio returns a success record, its
title, author and duration are exactly the probed metadata and its
file_name is the base name of its file_path. -/
theorem success_echoes_probe (env : Env) (url dir fmt q : String) (info : VideoInfo)
    (p t a n : String) (d : Nat) (r : Bool)
    (hinfo : get_video_info env.probeProc env.parseJson = .ok info)
    (h : download_youtube_audio env url dir fmt q = (.success p t a n d, r)) :
    t = info.title ∧ a = info.uploader ∧ d = info.duration ∧ n = basename p := by
  unfold download_youtube_audio at h
  rw [hinfo] at h
  simp only at h
  by_cases hrc : env.extractProc.returncode ≠ 0
  · rw [if_pos hrc] at h
    simp at h
  · rw [if_neg hrc] at h
    by_cases hex : (clean_filename info.title ++ "." ++ fmt) ∈ env.fs.dirFiles
    · rw [if_pos hex] at h
      simp only [Prod.mk.injEq, DLResult.success.injEq] at h
      obtain ⟨⟨hp, ht, ha, hn, hd⟩, -⟩ := h
      exact ⟨ht.symm, ha.symm, hd.symm, by rw [← hn, ← hp]⟩
    · rw [if_neg hex] at h
      cases hfil : env.fs.dirFiles.filter (globMatch (clean_filename info.title)) with
      | nil =>
        rw [hfil] at h
        simp at h
      | cons n0 rest =>
        rw [hfil] at h
        simp only [List.map_cons, Prod.mk.injEq, DLResult.success.injEq] at h
        obtain ⟨⟨hp, ht, ha, hn, hd⟩, -⟩ := h
        exact ⟨ht.symm, ha.symm, hd.symm, by rw [← hn, ← hp]⟩

/-- Witness for `success_echoes_probe`: the spec example, probing title
"My: Video? <Test>" and resolving "downloads/My_ Video_ _Test_.mp3". -/
theorem success_echoes_probe_witness :
    download_youtube_audio envSpecExample "u" "downloads" "mp3" "192" =
      (.success "downloads/My_ Video_ _Test_.mp3" "My: Video? <Test>"
        "Unknown Uploader" "My_ Video_ _Test_.mp3" 0, true) ∧
    "My_ Video_ _Test_.mp3" = basename "downloads/My_ Video_ _Test_.mp3" := by
  refine ⟨by decide, ?_⟩
  exact (success_echoes_probe envSpecExample "u" "downloads" "mp3" "192"
    ⟨"My: Video? <Test>", "Unknown Uploader", 0, ""⟩
    "downloads/My_ Video_ _Test_.mp3" "My: Video? <Test>" "Unknown Uploader"
    "My_ Video_ _Test_.mp3" 0 true (by decide) (by decide)).2.2.2

/-! ### Claim theorems: the transcript cache check (C9) -/

/-- C9 (counterexample): the handler treats the transcript as cached as
soon as the plain-text file exists, even though no JSON sidecar does, so
"cache hit exactly when both files are present" is false on this code. -/
theorem transcript_cache_cex :
    generate_transcript_step fsTxtOnly "video.mp3" =
      .loadExisting "transcripts/video.txt" ∧
    fsTxtOnly "transcripts/video.json" = false := by
  constructor <;> decide

/-- C9 (amended): the transcript filename is the audio filename stem plus
".txt" (no recognizer-model identifier), and the handler loads the
existing transcript exactly when that single plain-text file exists; no
JSON sidecar is consulted. -/
theorem transcript_cache_txt_only (pathExists : String → Bool) (file_name : String) :
    transcript_filename file_name = String.mk (splitextStem file_name.data) ++ ".txt" ∧
    (generate_transcript_step pathExists file_name =
        .loadExisting (transcript_path file_name) ↔
      pathExists (transcript_path file_name) = true) ∧
    (generate_transcript_step pathExists file_name =
        .generate (transcript_path file_name) ↔
      pathExists (transcript_path file_name) = false) := by
  refine ⟨rfl, ?_, ?_⟩ <;> by_cases hp : pathExists (transcript_path file_name) <;>
    simp [generate_transcript_step, hp]

/-- Witness for `transcript_cache_txt_only` at "video.mp3" with only the
plain-text file present. -/
theorem transcript_cache_txt_only_witness :
    generate_transcript_step fsTxtOnly "video.mp3" =
      .loadExisting (transcript_path "video.mp3") :=
  (transcript_cache_txt_only fsTxtOnly "video.mp3").2.1.mpr (by decide)

end App
